import Mathlib

/-!
Verification of `src/rtd_simulation.py` (class `RTDSimulation`).

Python floats are modelled as real numbers. The process-wide random
source (`np.random`) is modelled as a stream of realized draws together
with a position counter: `stream n` is the value returned by the
`n`-th call to `np.random.normal(0, noise_level)`, and each call to
`get_target_movement` consumes exactly one value and advances the
position. The per-step `print` of a coherence line is modelled as an
appended `(step index, clamped coherence)` log entry.
-/

open Real

/-- The fields set by `RTDSimulation.__init__`: time step `dt`, the
noise standard deviation `noise_level`, the `static_core` anchor, the
`eigen_decay` coefficient and the (unused) `phi_state`. -/
structure RTDSimulation where
  dt : ℝ
  noise_level : ℝ
  static_core : ℝ × ℝ
  eigen_decay : ℝ
  phi_state : ℝ × ℝ

/-- The default parameter values assigned in `__init__`:
`dt = 0.01`, `noise_level = 0.4`, `static_core = [0, 0]`,
`eigen_decay = 0.85`, `phi_state = [0, 0]`. -/
noncomputable def RTDSimulation.defaultSim : RTDSimulation :=
  ⟨0.01, 0.4, (0, 0), 0.85, (0, 0)⟩

/-- The process-wide random source: `stream n` is the realized value of
the `n`-th normal draw, `pos` counts how many draws were consumed. -/
structure RandomState where
  stream : ℕ → ℝ
  pos : ℕ

/-- The random source whose every draw is realized as `0`
(the `noiseLevel = 0` / noise-disabled scenario). -/
def zeroRng : RandomState :=
  ⟨fun _ => 0, 0⟩

/-- Advancing the random source by `j` consumed draws. -/
def drawShift (rng : RandomState) (j : ℕ) : RandomState :=
  ⟨rng.stream, rng.pos + j⟩

/-- `RTDSimulation.get_target_movement(t)`: cardiac pulsation plus
respiratory drift plus one stochastic draw
(`np.random.normal(0, self.noise_level)`, modelled as consuming the
next value of the stream). Returns the sample and the advanced
random source. -/
noncomputable def get_target_movement (sim : RTDSimulation) (t : ℝ)
    (rng : RandomState) : ℝ × RandomState :=
  let pulse := 0.5 * Real.sin (2 * π * 1.2 * t)
  let breath := 1.2 * Real.sin (2 * π * 0.3 * t)
  let stochastic_noise := rng.stream rng.pos
  (pulse + breath + stochastic_noise, drawShift rng 1)

/-- `RTDSimulation.apply_rtd_filter(raw_signal, predicted_state)`:
`error = raw - predicted`, `gamma_correction = error * (1 - eigen_decay)`,
`new_state = predicted + gamma_correction`. -/
noncomputable def apply_rtd_filter (sim : RTDSimulation)
    (raw_signal predicted_state : ℝ) : ℝ :=
  let error := raw_signal - predicted_state
  let gamma_correction := error * (1 - sim.eigen_decay)
  predicted_state + gamma_correction

/-- The denominator of the coherence metric in `run`:
`np.abs(target_pos) + 1.5`. -/
noncomputable def coherenceDenom (target_pos : ℝ) : ℝ :=
  |target_pos| + 1.5

/-- The coherence metric computed at sampled steps of `run`:
`1.0 - (np.abs(stable_pos - target_pos) / (np.abs(target_pos) + 1.5))`. -/
noncomputable def coherence (stable_pos target_pos : ℝ) : ℝ :=
  1.0 - |stable_pos - target_pos| / coherenceDenom target_pos

/-- The observable outcome of `run`: the two returned trajectories
(`raw_sensor_data`, `rtd_trajectory`), the per-step coherence log
lines as `(step index, clamped value)` pairs, and the final state of
the random source. -/
structure RunResult where
  raw_sensor_data : List ℝ
  rtd_trajectory : List ℝ
  logs : List (ℕ × ℝ)
  rng : RandomState

/-- The loop body of `RTDSimulation.run`: iterate `n` more steps
starting at step index `i`, with carried `current_prediction` and the
current random source. Each step acquires a raw sample at `t = i * dt`,
applies the filter, appends to both trajectories, and if `i % 200 == 0`
logs the clamped coherence of the step. -/
noncomputable def runLoop (sim : RTDSimulation) :
    ℕ → ℕ → ℝ → RandomState → RunResult
  | 0, _, _, rng => ⟨[], [], [], rng⟩
  | n + 1, i, pred, rng =>
    let acquired := get_target_movement sim ((i : ℝ) * sim.dt) rng
    let target_pos := acquired.1
    let stable_pos := apply_rtd_filter sim target_pos pred
    let line : List (ℕ × ℝ) :=
      if i % 200 = 0 then [(i, max 0 (coherence stable_pos target_pos))]
      else []
    let rest := runLoop sim n (i + 1) stable_pos acquired.2
    ⟨target_pos :: rest.raw_sensor_data, stable_pos :: rest.rtd_trajectory,
      line ++ rest.logs, rest.rng⟩

/-- `RTDSimulation.run(steps)`: Python's `for i in range(steps)`
iterates `max steps 0` times (`Int.toNat`), starting from
`current_prediction = 0.0`. The Python function returns the pair
`(raw_sensor_data, rtd_trajectory)`; the logs and the advanced random
source are its side effects. -/
noncomputable def RTDSimulation.run (sim : RTDSimulation) (steps : ℤ)
    (rng : RandomState) : RunResult :=
  runLoop sim steps.toNat 0 0 rng

/-- The raw sample acquired at the `j`-th iteration of a loop that
started at step index `i` with random source `rng`: the generator
sample at `t = (i + j) * dt` using the `j`-th remaining draw. -/
noncomputable def sampleAt (sim : RTDSimulation) (rng : RandomState)
    (i j : ℕ) : ℝ :=
  (get_target_movement sim (((i + j : ℕ) : ℝ) * sim.dt) (drawShift rng j)).1

/-- The carried prediction after `k` iterations of a loop that started
at step index `i` with prediction `pred` and random source `rng`. -/
noncomputable def predSeq (sim : RTDSimulation) (rng : RandomState)
    (i : ℕ) (pred : ℝ) : ℕ → ℝ
  | 0 => pred
  | j + 1 => apply_rtd_filter sim (sampleAt sim rng i j) (predSeq sim rng i pred j)

/-- The log entry (if any) produced at the `j`-th iteration of a loop
that started at step index `i`. -/
noncomputable def logAt (sim : RTDSimulation) (rng : RandomState)
    (i : ℕ) (pred : ℝ) (j : ℕ) : Option (ℕ × ℝ) :=
  if (i + j) % 200 = 0 then
    some (i + j, max 0 (coherence (predSeq sim rng i pred (j + 1)) (sampleAt sim rng i j)))
  else none

/-- Repeated application of the filter to a constant raw input `r`,
starting from initial predicted state `s0`. -/
noncomputable def filterIterate (sim : RTDSimulation) (r s0 : ℝ) : ℕ → ℝ
  | 0 => s0
  | k + 1 => apply_rtd_filter sim r (filterIterate sim r s0 k)

lemma sampleAt_shift (sim : RTDSimulation) (rng : RandomState) (i j : ℕ) :
    sampleAt sim rng i (j + 1) = sampleAt sim (drawShift rng 1) (i + 1) j := by
  simp only [sampleAt, drawShift, get_target_movement]
  have h1 : i + (j + 1) = i + 1 + j := by omega
  have h2 : rng.pos + (j + 1) = rng.pos + 1 + j := by omega
  rw [h1, h2]

lemma sampleAt_zero (sim : RTDSimulation) (rng : RandomState) (i : ℕ) :
    sampleAt sim rng i 0 = (get_target_movement sim ((i : ℝ) * sim.dt) rng).1 := by
  simp [sampleAt, drawShift, get_target_movement]

lemma predSeq_shift (sim : RTDSimulation) (rng : RandomState) (i : ℕ) (pred : ℝ) :
    ∀ j, predSeq sim rng i pred (j + 1) =
      predSeq sim (drawShift rng 1) (i + 1) (predSeq sim rng i pred 1) j := by
  intro j
  induction j with
  | zero => rfl
  | succ j ih =>
    show apply_rtd_filter sim (sampleAt sim rng i (j + 1)) (predSeq sim rng i pred (j + 1)) = _
    rw [sampleAt_shift, ih]
    rfl

lemma logAt_shift (sim : RTDSimulation) (rng : RandomState) (i : ℕ) (pred : ℝ) (j : ℕ) :
    logAt sim rng i pred (j + 1) =
      logAt sim (drawShift rng 1) (i + 1) (predSeq sim rng i pred 1) j := by
  simp only [logAt]
  rw [sampleAt_shift, predSeq_shift sim rng i pred (j + 1)]
  have h1 : i + (j + 1) = i + 1 + j := by omega
  rw [h1]

/-- Closed form of the loop of `run`: trajectories, logs and final
random source as functions of the per-iteration samples and carried
predictions. -/
lemma runLoop_eq (sim : RTDSimulation) :
    ∀ (n i : ℕ) (pred : ℝ) (rng : RandomState),
      runLoop sim n i pred rng =
        ⟨(List.range n).map (sampleAt sim rng i),
         (List.range n).map (fun j => predSeq sim rng i pred (j + 1)),
         (List.range n).filterMap (logAt sim rng i pred),
         drawShift rng n⟩ := by
  intro n
  induction n with
  | zero =>
    intro i pred rng
    simp [runLoop, drawShift]
  | succ n ih =>
    intro i pred rng
    rw [runLoop, ih]
    rw [List.range_succ_eq_map]
    simp only [List.map_cons, List.map_map, List.filterMap_cons]
    have hs0 : (get_target_movement sim ((i : ℝ) * sim.dt) rng).1 = sampleAt sim rng i 0 :=
      (sampleAt_zero sim rng i).symm
    have hp1 : apply_rtd_filter sim (sampleAt sim rng i 0) pred = predSeq sim rng i pred 1 := rfl
    have hrng2 : (get_target_movement sim ((i : ℝ) * sim.dt) rng).2 = drawShift rng 1 := rfl
    have hms : ((List.range n).map fun j => sampleAt sim (drawShift rng 1) (i + 1) j) =
        (List.range n).map (sampleAt sim rng i ∘ Nat.succ) := by
      refine List.map_congr_left ?_
      intro j _
      simp [Function.comp, sampleAt_shift]
    have hmp : ((List.range n).map fun j =>
          predSeq sim (drawShift rng 1) (i + 1) (predSeq sim rng i pred 1) (j + 1)) =
        (List.range n).map ((fun j => predSeq sim rng i pred (j + 1)) ∘ Nat.succ) := by
      refine List.map_congr_left ?_
      intro j _
      simp only [Function.comp]
      rw [predSeq_shift sim rng i pred (j + 1)]
    have hml : (List.range n).filterMap (logAt sim (drawShift rng 1) (i + 1)
          (predSeq sim rng i pred 1)) =
        (List.range n).filterMap (logAt sim rng i pred ∘ Nat.succ) := by
      refine List.filterMap_congr ?_
      intro j _
      simp only [Function.comp]
      rw [logAt_shift]
    have hd : drawShift (drawShift rng 1) n = drawShift rng (n + 1) := by
      simp only [drawShift]
      congr 1
      omega
    rw [hrng2, hs0, hp1, hms, hmp, hml, hd]
    congr 1
    · rw [List.filterMap_map]
      have h0 : logAt sim rng i pred 0 =
          if i % 200 = 0 then
            some (i, max 0 (coherence (predSeq sim rng i pred 1) (sampleAt sim rng i 0)))
          else none := by
        simp [logAt]
      rw [h0]
      by_cases hc : i % 200 = 0 <;> simp [hc]

lemma run_raw_eq (sim : RTDSimulation) (steps : ℤ) (rng : RandomState) :
    (sim.run steps rng).raw_sensor_data =
      (List.range steps.toNat).map (sampleAt sim rng 0) := by
  rw [RTDSimulation.run, runLoop_eq]

lemma run_traj_eq (sim : RTDSimulation) (steps : ℤ) (rng : RandomState) :
    (sim.run steps rng).rtd_trajectory =
      (List.range steps.toNat).map (fun j => predSeq sim rng 0 0 (j + 1)) := by
  rw [RTDSimulation.run, runLoop_eq]

lemma run_logs_eq (sim : RTDSimulation) (steps : ℤ) (rng : RandomState) :
    (sim.run steps rng).logs =
      (List.range steps.toNat).filterMap (logAt sim rng 0 0) := by
  rw [RTDSimulation.run, runLoop_eq]

lemma run_rng_eq (sim : RTDSimulation) (steps : ℤ) (rng : RandomState) :
    (sim.run steps rng).rng = drawShift rng steps.toNat := by
  rw [RTDSimulation.run, runLoop_eq]

lemma getD_range_map (f : ℕ → ℝ) {n j : ℕ} (h : j < n) :
    ((List.range n).map f).getD j 0 = f j := by
  rw [List.getD_eq_getElem?_getD, List.getElem?_map, List.getElem?_range h]
  rfl

lemma sampleAt_zero_start (sim : RTDSimulation) (rng : RandomState) (j : ℕ) :
    sampleAt sim rng 0 j =
      (get_target_movement sim ((j : ℝ) * sim.dt) (drawShift rng j)).1 := by
  simp [sampleAt]

/-- C1: the filter update returns `predicted + (raw - predicted) * (1 - eigenDecay)`,
and `run` threads it: the first filtered state comes from prediction `0.0`,
every later one from the previous filtered state. -/
theorem filter_update_formula_and_threading :
    (∀ (sim : RTDSimulation) (raw predicted : ℝ),
      apply_rtd_filter sim raw predicted =
        predicted + (raw - predicted) * (1 - sim.eigen_decay)) ∧
    ∀ (sim : RTDSimulation) (steps : ℤ) (rng : RandomState) (i : ℕ),
      i < steps.toNat →
      (sim.run steps rng).rtd_trajectory.getD i 0 =
        apply_rtd_filter sim ((sim.run steps rng).raw_sensor_data.getD i 0)
          (if i = 0 then 0 else (sim.run steps rng).rtd_trajectory.getD (i - 1) 0) := by
  constructor
  · intro sim raw predicted
    rfl
  · intro sim steps rng i hi
    rw [run_traj_eq, run_raw_eq, getD_range_map _ hi, getD_range_map _ hi]
    match i with
    | 0 => rfl
    | k + 1 =>
      rw [if_neg (Nat.succ_ne_zero k)]
      simp only [Nat.add_sub_cancel]
      rw [getD_range_map _ (by omega : k < steps.toNat)]
      rfl

/-- Witness for C1 at `sim = defaultSim`, `steps = 2`, `rng = zeroRng`, `i = 1`. -/
theorem filter_update_formula_and_threading_witness :
    (1 : ℕ) < (2 : ℤ).toNat ∧
    (RTDSimulation.defaultSim.run 2 zeroRng).rtd_trajectory.getD 1 0 =
      apply_rtd_filter RTDSimulation.defaultSim
        ((RTDSimulation.defaultSim.run 2 zeroRng).raw_sensor_data.getD 1 0)
        (if 1 = 0 then 0 else
          (RTDSimulation.defaultSim.run 2 zeroRng).rtd_trajectory.getD 0 0) :=
  ⟨by decide,
    filter_update_formula_and_threading.2 RTDSimulation.defaultSim 2 zeroRng 1 (by decide)⟩

/-- C8: with `eigen_decay = 1` the filter is frozen:
`apply_rtd_filter(raw, predicted) = predicted` for all inputs, as an
ordinary return value. -/
theorem filter_frozen_at_decay_one (sim : RTDSimulation)
    (h : sim.eigen_decay = 1) (raw predicted : ℝ) :
    apply_rtd_filter sim raw predicted = predicted := by
  simp [apply_rtd_filter, h]

/-- A parameter bundle whose `eigen_decay` is `1`. -/
noncomputable def frozenSim : RTDSimulation :=
  ⟨0.01, 0.4, (0, 0), 1, (0, 0)⟩

/-- Witness for C8 at `eigen_decay = 1`, `raw = 2`, `predicted = 3`. -/
theorem filter_frozen_at_decay_one_witness :
    frozenSim.eigen_decay = 1 ∧ apply_rtd_filter frozenSim 2 3 = 3 :=
  ⟨rfl, filter_frozen_at_decay_one frozenSim rfl 2 3⟩

/-- C9: the coherence denominator `|raw| + 1.5` is strictly positive
(hence nonzero) for every real raw sample, so the metric
`coherence` divides by a nonzero quantity. -/
theorem coherence_denominator_pos :
    (∀ raw : ℝ, 0 < coherenceDenom raw) ∧
    (∀ raw : ℝ, coherenceDenom raw ≠ 0) ∧
    ∀ raw stable : ℝ,
      coherence stable raw = 1.0 - |stable - raw| / coherenceDenom raw := by
  have hpos : ∀ raw : ℝ, 0 < coherenceDenom raw := by
    intro raw
    unfold coherenceDenom
    have := abs_nonneg raw
    norm_num
    linarith
  exact ⟨hpos, fun raw => (hpos raw).ne', fun raw stable => rfl⟩

/-- C2: for non-negative `steps`, `run` returns the raw trajectory and
the filtered trajectory, index-aligned, each of length exactly
`steps`; `raw[i]` is the generator sample at `t = i * dt` (on the
`i`-th draw); `steps = 0` gives two empty sequences and no log line;
for `steps > 0` the first filtered state is `update(raw[0], 0.0)`. -/
theorem run_shape_and_alignment (sim : RTDSimulation) (steps : ℤ)
    (rng : RandomState) (h : 0 ≤ steps) :
    (sim.run steps rng).raw_sensor_data.length = steps.toNat ∧
    (sim.run steps rng).rtd_trajectory.length = steps.toNat ∧
    (∀ i : ℕ, i < steps.toNat →
      (sim.run steps rng).raw_sensor_data.getD i 0 =
        (get_target_movement sim ((i : ℝ) * sim.dt) (drawShift rng i)).1) ∧
    (steps = 0 → (sim.run steps rng).raw_sensor_data = [] ∧
      (sim.run steps rng).rtd_trajectory = [] ∧ (sim.run steps rng).logs = []) ∧
    (0 < steps → (sim.run steps rng).rtd_trajectory.getD 0 0 =
      apply_rtd_filter sim ((sim.run steps rng).raw_sensor_data.getD 0 0) 0) := by
  refine ⟨?_, ?_, ?_, ?_, ?_⟩
  · rw [run_raw_eq]
    simp
  · rw [run_traj_eq]
    simp
  · intro i hi
    rw [run_raw_eq, getD_range_map _ hi, sampleAt_zero_start]
  · intro h0
    subst h0
    rw [run_raw_eq, run_traj_eq, run_logs_eq]
    simp
  · intro hpos
    have h0 : 0 < steps.toNat := by omega
    rw [run_raw_eq, run_traj_eq, getD_range_map _ h0, getD_range_map _ h0]
    rfl

/-- Witness for C2 at `sim = defaultSim`, `steps = 1`, `rng = zeroRng`. -/
theorem run_shape_and_alignment_witness :
    (0 : ℤ) ≤ 1 ∧
    ((RTDSimulation.defaultSim.run 1 zeroRng).raw_sensor_data.length = (1 : ℤ).toNat ∧
    (RTDSimulation.defaultSim.run 1 zeroRng).rtd_trajectory.length = (1 : ℤ).toNat ∧
    (∀ i : ℕ, i < (1 : ℤ).toNat →
      (RTDSimulation.defaultSim.run 1 zeroRng).raw_sensor_data.getD i 0 =
        (get_target_movement RTDSimulation.defaultSim ((i : ℝ) * RTDSimulation.defaultSim.dt)
          (drawShift zeroRng i)).1) ∧
    ((1 : ℤ) = 0 → (RTDSimulation.defaultSim.run 1 zeroRng).raw_sensor_data = [] ∧
      (RTDSimulation.defaultSim.run 1 zeroRng).rtd_trajectory = [] ∧
      (RTDSimulation.defaultSim.run 1 zeroRng).logs = []) ∧
    ((0 : ℤ) < 1 → (RTDSimulation.defaultSim.run 1 zeroRng).rtd_trajectory.getD 0 0 =
      apply_rtd_filter RTDSimulation.defaultSim
        ((RTDSimulation.defaultSim.run 1 zeroRng).raw_sensor_data.getD 0 0) 0)) :=
  ⟨by decide, run_shape_and_alignment RTDSimulation.defaultSim 1 zeroRng (by decide)⟩

/-- C3 counterexample: `run(-1)` does not fail; Python's
`range(-1)` is empty, so it returns two empty sequences. -/
theorem run_negative_counterexample :
    (RTDSimulation.defaultSim.run (-1) zeroRng).raw_sensor_data = [] ∧
    (RTDSimulation.defaultSim.run (-1) zeroRng).rtd_trajectory = [] := by
  constructor <;> rfl

/-- C3 amended: for every negative `steps`, `run` returns normally with
two empty trajectories, no log line, and an untouched random source;
no `InvalidArgument`-style error is raised (the code has no such
validation). -/
theorem run_negative_returns_empty (sim : RTDSimulation) (steps : ℤ)
    (rng : RandomState) (h : steps < 0) :
    sim.run steps rng = ⟨[], [], [], rng⟩ := by
  have ht : steps.toNat = 0 := Int.toNat_eq_zero.mpr h.le
  rw [RTDSimulation.run, ht, runLoop]

/-- Witness for the amended C3 at `steps = -5`. -/
theorem run_negative_returns_empty_witness :
    (-5 : ℤ) < 0 ∧ RTDSimulation.defaultSim.run (-5) zeroRng = ⟨[], [], [], zeroRng⟩ :=
  ⟨by decide, run_negative_returns_empty RTDSimulation.defaultSim (-5) zeroRng (by decide)⟩

lemma filterIterate_closed (sim : RTDSimulation) (r s0 : ℝ) :
    ∀ k, filterIterate sim r s0 k = r + sim.eigen_decay ^ k * (s0 - r) := by
  intro k
  induction k with
  | zero => simp [filterIterate]
  | succ k ih =>
    show apply_rtd_filter sim r (filterIterate sim r s0 k) = _
    rw [ih, apply_rtd_filter]
    simp only [pow_succ]
    ring

/-- C4: for `eigen_decay` in `(0,1)` and constant raw input `r`, the
iterated filter state has `|state - r|` non-increasing, converges to
`r`, and stays inside `[min s0 r, max s0 r]`. -/
theorem filter_constant_input_converges (sim : RTDSimulation) (r s0 : ℝ)
    (h0 : 0 < sim.eigen_decay) (h1 : sim.eigen_decay < 1) :
    (∀ k, |filterIterate sim r s0 (k + 1) - r| ≤ |filterIterate sim r s0 k - r|) ∧
    Filter.Tendsto (filterIterate sim r s0) Filter.atTop (nhds r) ∧
    ∀ k, min s0 r ≤ filterIterate sim r s0 k ∧ filterIterate sim r s0 k ≤ max s0 r := by
  refine ⟨?_, ?_, ?_⟩
  · intro k
    rw [filterIterate_closed, filterIterate_closed]
    simp only [add_sub_cancel_left]
    have he : sim.eigen_decay ^ (k + 1) * (s0 - r) =
        sim.eigen_decay * (sim.eigen_decay ^ k * (s0 - r)) := by
      ring
    rw [he, abs_mul]
    exact mul_le_of_le_one_left (abs_nonneg _) (by rw [abs_of_pos h0]; exact h1.le)
  · have hd : Filter.Tendsto (fun k => sim.eigen_decay ^ k) Filter.atTop (nhds 0) :=
      tendsto_pow_atTop_nhds_zero_of_lt_one h0.le h1
    have h2 := (hd.mul_const (s0 - r)).const_add r
    rw [zero_mul, add_zero] at h2
    exact h2.congr fun k => (filterIterate_closed sim r s0 k).symm
  · intro k
    rw [filterIterate_closed]
    have hp : (0 : ℝ) ≤ sim.eigen_decay ^ k := pow_nonneg h0.le k
    have hle : sim.eigen_decay ^ k ≤ 1 := pow_le_one₀ h0.le h1.le
    constructor
    · nlinarith [mul_nonneg (sub_nonneg.2 hle) (sub_nonneg.2 (min_le_right s0 r)),
        mul_nonneg hp (sub_nonneg.2 (min_le_left s0 r))]
    · nlinarith [mul_nonneg (sub_nonneg.2 hle) (sub_nonneg.2 (le_max_right s0 r)),
        mul_nonneg hp (sub_nonneg.2 (le_max_left s0 r))]

/-- A parameter bundle whose `eigen_decay` is `1/2`. -/
noncomputable def halfSim : RTDSimulation :=
  ⟨0.01, 0.4, (0, 0), 1 / 2, (0, 0)⟩

/-- Witness for C4 at `eigen_decay = 1/2`, `r = 1`, `s0 = 0`. -/
theorem filter_constant_input_converges_witness :
    0 < halfSim.eigen_decay ∧ halfSim.eigen_decay < 1 ∧
    ((∀ k, |filterIterate halfSim 1 0 (k + 1) - 1| ≤ |filterIterate halfSim 1 0 k - 1|) ∧
    Filter.Tendsto (filterIterate halfSim 1 0) Filter.atTop (nhds 1) ∧
    ∀ k, min (0 : ℝ) 1 ≤ filterIterate halfSim 1 0 k ∧
      filterIterate halfSim 1 0 k ≤ max (0 : ℝ) 1) :=
  ⟨by norm_num [halfSim], by norm_num [halfSim],
    filter_constant_input_converges halfSim 1 0 (by norm_num [halfSim])
      (by norm_num [halfSim])⟩

/-- C5: a log entry exists exactly at step indices that are multiples
of 200 (including 0) below `steps`; its value is the coherence of that
step's filtered state and raw sample clamped to a minimum of 0, hence
always nonnegative. -/
theorem run_coherence_logging (sim : RTDSimulation) (steps : ℤ) (rng : RandomState) :
    (∀ p ∈ (sim.run steps rng).logs,
      p.1 < steps.toNat ∧ p.1 % 200 = 0 ∧
      p.2 = max 0 (coherence ((sim.run steps rng).rtd_trajectory.getD p.1 0)
        ((sim.run steps rng).raw_sensor_data.getD p.1 0)) ∧ 0 ≤ p.2) ∧
    ∀ i : ℕ, i < steps.toNat → i % 200 = 0 →
      (i, max 0 (coherence ((sim.run steps rng).rtd_trajectory.getD i 0)
        ((sim.run steps rng).raw_sensor_data.getD i 0))) ∈ (sim.run steps rng).logs := by
  constructor
  · intro p hp
    rw [run_logs_eq, List.mem_filterMap] at hp
    obtain ⟨j, hj, hpj⟩ := hp
    rw [List.mem_range] at hj
    unfold logAt at hpj
    by_cases hc : (0 + j) % 200 = 0
    · rw [if_pos hc] at hpj
      have hpeq := Option.some.inj hpj
      rw [← hpeq]
      simp only [Nat.zero_add] at hc ⊢
      refine ⟨hj, hc, ?_, le_max_left _ _⟩
      rw [run_traj_eq, run_raw_eq, getD_range_map _ hj, getD_range_map _ hj]
    · rw [if_neg hc] at hpj
      exact absurd hpj (by simp)
  · intro i hi hm
    rw [run_logs_eq, List.mem_filterMap]
    refine ⟨i, List.mem_range.mpr hi, ?_⟩
    unfold logAt
    rw [if_pos (by simpa using hm)]
    rw [run_traj_eq, run_raw_eq, getD_range_map _ hi, getD_range_map _ hi]
    simp only [Nat.zero_add]

/-- Witness for C5: with `steps = 1` the single step `i = 0` is logged
with the clamped coherence of its filtered state and raw sample. -/
theorem run_coherence_logging_witness :
    (0 : ℕ) < (1 : ℤ).toNat ∧ (0 : ℕ) % 200 = 0 ∧
    ((0 : ℕ), max 0 (coherence
      ((RTDSimulation.defaultSim.run 1 zeroRng).rtd_trajectory.getD 0 0)
      ((RTDSimulation.defaultSim.run 1 zeroRng).raw_sensor_data.getD 0 0))) ∈
        (RTDSimulation.defaultSim.run 1 zeroRng).logs :=
  ⟨by decide, by decide,
    (run_coherence_logging RTDSimulation.defaultSim 1 zeroRng).2 0 (by decide) (by decide)⟩

/-- C6: the generator sample is exactly the cardiac term plus the
respiratory term plus the one consumed stochastic draw; with that draw
equal to 0 the sample at `t = 0` is `0`. -/
theorem target_movement_three_terms (sim : RTDSimulation) :
    (∀ (t : ℝ) (rng : RandomState),
      (get_target_movement sim t rng).1 =
        0.5 * Real.sin (2 * π * 1.2 * t) + 1.2 * Real.sin (2 * π * 0.3 * t) +
          rng.stream rng.pos) ∧
    ∀ rng : RandomState, rng.stream rng.pos = 0 →
      (get_target_movement sim 0 rng).1 = 0 := by
  constructor
  · intro t rng
    rfl
  · intro rng h
    simp [get_target_movement, h]

/-- Witness for C6 at the all-zero random source. -/
theorem target_movement_three_terms_witness :
    zeroRng.stream zeroRng.pos = 0 ∧
    (get_target_movement RTDSimulation.defaultSim 0 zeroRng).1 = 0 :=
  ⟨rfl, (target_movement_three_terms RTDSimulation.defaultSim).2 zeroRng rfl⟩

/-- C7: two runs over random sources that realize the same sequence of
draws produce identical raw trajectories, filtered trajectories and
coherence logs — the draws are the only source of non-determinism. -/
theorem run_deterministic_given_stream (sim : RTDSimulation) (steps : ℤ)
    (rng1 rng2 : RandomState)
    (h : ∀ j, j < steps.toNat → rng1.stream (rng1.pos + j) = rng2.stream (rng2.pos + j)) :
    (sim.run steps rng1).raw_sensor_data = (sim.run steps rng2).raw_sensor_data ∧
    (sim.run steps rng1).rtd_trajectory = (sim.run steps rng2).rtd_trajectory ∧
    (sim.run steps rng1).logs = (sim.run steps rng2).logs := by
  have hs : ∀ j, j < steps.toNat → sampleAt sim rng1 0 j = sampleAt sim rng2 0 j := by
    intro j hj
    simp only [sampleAt, get_target_movement, drawShift]
    rw [h j hj]
  have hp : ∀ j, j ≤ steps.toNat → predSeq sim rng1 0 0 j = predSeq sim rng2 0 0 j := by
    intro j
    induction j with
    | zero => intro _; rfl
    | succ j ih =>
      intro hj
      show apply_rtd_filter sim (sampleAt sim rng1 0 j) (predSeq sim rng1 0 0 j) = _
      rw [hs j (by omega), ih (by omega)]
      rfl
  refine ⟨?_, ?_, ?_⟩
  · rw [run_raw_eq, run_raw_eq]
    refine List.map_congr_left ?_
    intro j hj
    exact hs j (List.mem_range.mp hj)
  · rw [run_traj_eq, run_traj_eq]
    refine List.map_congr_left ?_
    intro j hj
    exact hp (j + 1) (List.mem_range.mp hj)
  · rw [run_logs_eq, run_logs_eq]
    refine List.filterMap_congr ?_
    intro j hj
    have hj2 := List.mem_range.mp hj
    simp only [logAt]
    rw [hs j hj2, hp (j + 1) hj2]

/-- A random source realizing the same draws as `zeroRng` but starting
at a different stream position. -/
def shiftedZeroRng : RandomState :=
  ⟨fun _ => 0, 5⟩

/-- Witness for C7: `zeroRng` and `shiftedZeroRng` realize the same
draws, so `run 3` agrees on both. -/
theorem run_deterministic_given_stream_witness :
    (∀ j, j < (3 : ℤ).toNat →
      zeroRng.stream (zeroRng.pos + j) = shiftedZeroRng.stream (shiftedZeroRng.pos + j)) ∧
    ((RTDSimulation.defaultSim.run 3 zeroRng).raw_sensor_data =
      (RTDSimulation.defaultSim.run 3 shiftedZeroRng).raw_sensor_data ∧
    (RTDSimulation.defaultSim.run 3 zeroRng).rtd_trajectory =
      (RTDSimulation.defaultSim.run 3 shiftedZeroRng).rtd_trajectory ∧
    (RTDSimulation.defaultSim.run 3 zeroRng).logs =
      (RTDSimulation.defaultSim.run 3 shiftedZeroRng).logs) :=
  ⟨fun _ _ => rfl,
    run_deterministic_given_stream RTDSimulation.defaultSim 3 zeroRng shiftedZeroRng
      (fun _ _ => rfl)⟩

/-- C10: a run over `steps ≥ 0` consumes exactly one draw per step:
the final stream is unchanged, the position advances by exactly
`steps` (so `run 0` leaves the source untouched), and step `j` uses
draw number `pos + j`, in step order. -/
theorem run_consumes_one_draw_per_step (sim : RTDSimulation) (steps : ℤ)
    (rng : RandomState) (h : 0 ≤ steps) :
    (sim.run steps rng).rng.stream = rng.stream ∧
    (sim.run steps rng).rng.pos = rng.pos + steps.toNat ∧
    (sim.run 0 rng).rng = rng ∧
    ∀ j : ℕ, j < steps.toNat →
      (sim.run steps rng).raw_sensor_data.getD j 0 =
        (get_target_movement sim ((j : ℝ) * sim.dt) (drawShift rng j)).1 := by
  refine ⟨?_, ?_, ?_, ?_⟩
  · rw [run_rng_eq]
    rfl
  · rw [run_rng_eq]
    rfl
  · rw [run_rng_eq]
    rfl
  · intro j hj
    rw [run_raw_eq, getD_range_map _ hj, sampleAt_zero_start]

/-- Witness for C10 at `sim = defaultSim`, `steps = 2`, `rng = zeroRng`. -/
theorem run_consumes_one_draw_per_step_witness :
    (0 : ℤ) ≤ 2 ∧
    ((RTDSimulation.defaultSim.run 2 zeroRng).rng.stream = zeroRng.stream ∧
    (RTDSimulation.defaultSim.run 2 zeroRng).rng.pos = zeroRng.pos + (2 : ℤ).toNat ∧
    (RTDSimulation.defaultSim.run 0 zeroRng).rng = zeroRng ∧
    ∀ j : ℕ, j < (2 : ℤ).toNat →
      (RTDSimulation.defaultSim.run 2 zeroRng).raw_sensor_data.getD j 0 =
        (get_target_movement RTDSimulation.defaultSim
          ((j : ℝ) * RTDSimulation.defaultSim.dt) (drawShift zeroRng j)).1) :=
  ⟨by decide, run_consumes_one_draw_per_step RTDSimulation.defaultSim 2 zeroRng (by decide)⟩
